import Mathlib

/-
Verification of the trace resolution core in
pkg/frontend/http/trace/server.go (kelemetry trace server).

The embedding models the Jaeger data structures (model.Trace, model.Span,
model.Log with key-value fields), the external collaborators (cluster
registry listing, RFC3339 timestamp parsing, the span store's FindTraces
and GetTrace), and the request pipeline handleTrace -> findTrace ->
completeness refetch -> pruneTrace.  Store calls are recorded in an
explicit call log, together with the context value each call received,
so that properties about which store calls happen (and with which
cancellation context) can be stated.
-/

namespace Kelemetry

/-- A log entry attached to a span: `model.Log`, with its `Fields`
key-value list (`model.KeyValue` restricted to the string key and value,
which is all the code inspects). -/
structure LogEntry where
  fields : List (String × String)
  deriving DecidableEq, Repr

/-- A span: `model.Span`, restricted to the fields the code reads
(`TraceID`, `Logs`). -/
structure Span where
  traceID : Nat
  logs : List LogEntry
  deriving DecidableEq, Repr

/-- A trace: `model.Trace`, an ordered collection of spans. -/
structure Trace where
  spans : List Span
  deriving DecidableEq, Repr

/-- A Go `context.Context` value: either `context.Background()` or a
caller-supplied request context (distinguished by an id). -/
inductive Ctx where
  | background
  | request (id : Nat)
  deriving DecidableEq, Repr

/-- One nanosecond, the base unit of Go `time.Duration`. -/
def nanosecond : Int := 1

/-- `time.Second` in nanoseconds. -/
def second : Int := 1000000000 * nanosecond

/-- `time.Minute` in nanoseconds. -/
def minute : Int := 60 * second

/-- `time.Minute * 30`, the bucketing window width used in `findTrace`. -/
def halfHour : Int := 30 * minute

/-- Go `time.Time.Truncate(d)`: rounds `t` down to a multiple of `d`
since the zero time.  Instants are modelled as signed nanosecond offsets
from the zero time; `Int.emod` returns a remainder in `[0, d)` for
positive `d`, matching Go's rounding toward negative infinity. -/
def truncate (t d : Int) : Int := t - t % d

/-- The half-open 30-minute window derived from a timestamp
(`StartTimeMin` / `StartTimeMax` in `findTrace`).  The field `stop`
models the window end (`end` is a Lean keyword). -/
structure TimeWindow where
  start : Int
  stop : Int
  deriving DecidableEq, Repr

/-- The window computation inlined in `findTrace`:
`StartTimeMin = ts.Truncate(30m)`, `StartTimeMax = StartTimeMin + 30m`. -/
def bucket (t : Int) : TimeWindow :=
  { start := truncate t halfHour
    stop := truncate t halfHour + halfHour }

/-- `spanstore.TraceQueryParameters`, restricted to the fields the code
sets.  The Go `Tags` map is modelled as an association list. -/
structure TraceQueryParameters where
  serviceName : String
  operationName : String
  tags : List (String × String)
  startTimeMin : Int
  startTimeMax : Int
  deriving DecidableEq, Repr

/-- The `traceQuery` form-binding struct: the decoded request
parameters.  `namespace` is a Lean keyword, hence `namespace_`. -/
structure traceQuery where
  cluster : String
  resource : String
  namespace_ : String
  name : String
  ts : String
  spanType : String
  deriving DecidableEq, Repr

/-- A record of one call made to the span store, with the context value
that was passed to it. -/
inductive StoreCall where
  | findTraces (ctx : Ctx) (params : TraceQueryParameters)
  | getTrace (ctx : Ctx) (traceID : Nat)
  deriving DecidableEq, Repr

/-- The context value a store call received. -/
def callCtx : StoreCall → Ctx
  | .findTraces ctx _ => ctx
  | .getTrace ctx _ => ctx

/-- Whether a store call is a trace-by-ID fetch (`GetTrace`). -/
def isGetTrace : StoreCall → Bool
  | .findTraces _ _ => false
  | .getTrace _ _ => true

/-- The external collaborators of the core, taken as explicit inputs:
the cluster registry listing (`clusterList.List()`), RFC3339 timestamp
parsing (`time.Parse`, `none` on parse failure, otherwise the parsed
instant in nanoseconds), and the span store (`spanReader.FindTraces`,
`spanReader.GetTrace`), each taking the context it is invoked with. -/
structure Env where
  clusters : List String
  parseTs : String → Option Int
  findTraces : Ctx → TraceQueryParameters → Except String (List Trace)
  getTrace : Ctx → Nat → Except String Trace

/-- Outcome of a request stage: a trace carried forward (HTTP 200 with
the rendered trace), or a terminal error with its HTTP status code and
metric error label. -/
inductive Outcome where
  | ok (trace : Trace)
  | err (code : Nat) (label : String)
  deriving DecidableEq, Repr

/-- `model.KeyValues.FindByKey`: whether the field list carries the
given key (only the boolean `ok` result is used by `pruneTrace`). -/
def findByKey (fields : List (String × String)) (key : String) : Bool :=
  fields.any fun kv => kv.1 == key

/-- The inner loop of `pruneTrace`: builds `newLogs` by appending each
log whose fields carry the `spanType` key, starting from the empty
(`nil`) slice. -/
def pruneSpanLogs (logs : List LogEntry) (spanType : String) : List LogEntry :=
  logs.foldl
    (fun newLogs log => if findByKey log.fields spanType then newLogs ++ [log] else newLogs)
    []

/-- `pruneTrace(trace, spanType)`: if `spanType` is empty, return the
trace unchanged; otherwise replace each span's logs with the logs whose
fields carry the `spanType` key.  (The Go code mutates the spans in
place; the embedding returns the resulting trace.) -/
def pruneTrace (trace : Trace) (spanType : String) : Trace :=
  if spanType.length = 0 then trace
  else { spans := trace.spans.map fun span =>
          { span with logs := pruneSpanLogs span.logs spanType } }

/-- Go `strings.ToLower`: lower-case every character. -/
def toLowerStr (s : String) : String := ⟨s.data.map Char.toLower⟩

/-- The cluster membership loop in `findTrace`:
`strings.EqualFold(strings.ToLower(known), strings.ToLower(cluster))`,
i.e. case-insensitive comparison against each listed cluster
(fold-equality of two already lower-cased strings is equality of the
lower-cased strings). -/
def hasClusterIn (clusters : List String) (cluster : String) : Bool :=
  clusters.any fun knownCluster => toLowerStr knownCluster == toLowerStr cluster

/-- The tags map built in `findTrace`: always `resource` and `name`,
plus `namespace` when it is non-empty. -/
def mkTags (resource name namespace_ : String) : List (String × String) :=
  [("resource", resource), ("name", name)] ++
    (if namespace_ ≠ "" then [("namespace", namespace_)] else [])

/-- The `spanstore.TraceQueryParameters` literal built in `findTrace`. -/
def buildParams (serviceName : String) (query : traceQuery) (timestamp : Int) :
    TraceQueryParameters :=
  { serviceName := serviceName
    operationName := query.cluster
    tags := mkTags query.resource query.name query.namespace_
    startTimeMin := (bucket timestamp).start
    startTimeMax := (bucket timestamp).stop }

/-- `findTrace` (the trace locator): validate the identity, check
cluster membership, parse and bucket the timestamp, run the tag query
(with `context.Background()`, as the code does), and enforce the
exactly-one-match policy.  Returns the outcome and the store calls
made. -/
def findTrace (env : Env) (serviceName : String) (query : traceQuery) :
    Outcome × List StoreCall :=
  if query.cluster.length = 0 ∨ query.resource.length = 0 ∨ query.name.length = 0 then
    (.err 400 "EmptyParam", [])
  else if hasClusterIn env.clusters query.cluster then
    match env.parseTs query.ts with
    | none => (.err 400 "InvalidTimestamp", [])
    | some timestamp =>
      match env.findTraces Ctx.background (buildParams serviceName query timestamp) with
      | .error _ => (.err 500 "TraceError",
          [.findTraces Ctx.background (buildParams serviceName query timestamp)])
      | .ok traces =>
        if traces.length > 1 then
          (.err 500 "MultiTraceMatch",
            [.findTraces Ctx.background (buildParams serviceName query timestamp)])
        else
          match traces with
          | [] => (.err 404 "NoTraceMatch",
              [.findTraces Ctx.background (buildParams serviceName query timestamp)])
          | t :: _ => (.ok t, [.findTraces Ctx.background (buildParams serviceName query timestamp)])
  else (.err 404 "UnknownCluster", [])

/-- The `hasLogs` scan in `handleTrace`: whether any span carries at
least one log entry. -/
def hasLogs (trace : Trace) : Bool :=
  trace.spans.any fun span => decide (span.logs.length > 0)

/-- The completeness refetch block of `handleTrace` (lines 134-146): if
the trace has spans but none carries a log, fetch the full trace by the
first span's trace ID (with `context.Background()`, as the code does)
and use the result; on fetch failure return the 500 `TraceError`
outcome.  Otherwise pass the trace through with no store call. -/
def ensureLogs (env : Env) (trace : Trace) : Outcome × List StoreCall :=
  match trace.spans with
  | [] => (.ok trace, [])
  | span0 :: _ =>
    if hasLogs trace then (.ok trace, [])
    else
      match env.getTrace Ctx.background span0.traceID with
      | .error _ => (.err 500 "TraceError", [.getTrace Ctx.background span0.traceID])
      | .ok fetched => (.ok fetched, [.getTrace Ctx.background span0.traceID])

/-- `handleTrace` after query binding (the resolve pipeline): locate
with the fixed sentinel service name, then on success run the
completeness refetch and prune with the requested span type.  The
caller's request context `_callerCtx` (the gin request context) is
received but, as in the code, never forwarded to the store calls. -/
def handleTrace (env : Env) (_callerCtx : Ctx) (query : traceQuery) :
    Outcome × List StoreCall :=
  match findTrace env "tracing (exclusive)" query with
  | (.err code label, calls) => (.err code label, calls)
  | (.ok trace, calls) =>
    match ensureLogs env trace with
    | (.err code label, calls2) => (.err code label, calls ++ calls2)
    | (.ok trace2, calls2) => (.ok (pruneTrace trace2 query.spanType), calls ++ calls2)

/-
Concrete fixtures used to evaluate the definitions on closed inputs.
-/

/-- A log entry carrying the tag key `"audit"`. -/
def exLogAudit : LogEntry := ⟨[("audit", "v")]⟩

/-- A span (trace ID 2) carrying one log entry. -/
def exSpanLogged : Span := ⟨2, [exLogAudit]⟩

/-- A span (trace ID 2) carrying no log entries. -/
def exSpanBare : Span := ⟨2, []⟩

/-- A one-span trace with no logs anywhere (triggers the refetch). -/
def exTraceBare : Trace := ⟨[exSpanBare]⟩

/-- The full trace returned by the trace-by-ID fetch. -/
def exTraceFull : Trace := ⟨[exSpanLogged]⟩

/-- A concrete decoded request: known cluster (differing in case from
the listing), non-empty resource and name, parseable timestamp. -/
def exQuery : traceQuery := ⟨"prod", "pods", "", "foo-123", "TS", ""⟩

/-- Collaborators for the single-match scenario: one listed cluster
(upper-case `"Prod"`), `"TS"` parses to instant 1000, the tag query
returns exactly one (log-less) trace, the ID fetch returns the full
trace. -/
def exEnvOne : Env where
  clusters := ["Prod"]
  parseTs := fun s => if s = "TS" then some 1000 else none
  findTraces := fun _ _ => .ok [exTraceBare]
  getTrace := fun _ _ => .ok exTraceFull

/-- Collaborators for the ambiguous scenario: the tag query returns two
traces. -/
def exEnvAmb : Env where
  clusters := ["Prod"]
  parseTs := fun s => if s = "TS" then some 1000 else none
  findTraces := fun _ _ => .ok [exTraceFull, exTraceBare]
  getTrace := fun _ _ => .error "unreachable"

/-- Collaborators whose registry does not list the queried cluster. -/
def exEnvNone : Env where
  clusters := ["other"]
  parseTs := fun _ => none
  findTraces := fun _ _ => .error "unreachable"
  getTrace := fun _ _ => .error "unreachable"

/-
Shared helper lemmas.
-/

/-- A non-empty string has non-zero length. -/
theorem length_ne_zero_of_ne_empty {s : String} (h : s ≠ "") : s.length ≠ 0 := by
  intro hl
  apply h
  cases s with
  | mk data =>
    cases data with
    | nil => rfl
    | cons a l => simp [String.length] at hl

/-- The empty string has length zero. -/
theorem length_eq_zero_of_eq_empty {s : String} (h : s = "") : s.length = 0 := by
  subst h; rfl

/-- The accumulating append loop of `pruneSpanLogs` is `List.filter`. -/
theorem foldl_append_eq_filter (p : LogEntry → Bool) (acc : List LogEntry)
    (logs : List LogEntry) :
    logs.foldl (fun newLogs log => if p log then newLogs ++ [log] else newLogs) acc
      = acc ++ logs.filter p := by
  induction logs generalizing acc with
  | nil => simp
  | cons l ls ih => cases hp : p l <;> simp [List.filter_cons, hp, ih]

/-- `pruneSpanLogs` keeps exactly the ordered subsequence of logs whose
fields carry the key. -/
theorem pruneSpanLogs_eq_filter (logs : List LogEntry) (c : String) :
    pruneSpanLogs logs c = logs.filter fun l => findByKey l.fields c := by
  simpa using foldl_append_eq_filter (fun l => findByKey l.fields c) [] logs

/-- Filtering twice with the same predicate filters once. -/
theorem filter_idem {α : Type} (p : α → Bool) (l : List α) :
    (l.filter p).filter p = l.filter p := by
  rw [List.filter_filter]
  simp

/-
C5 - time bucketing.
-/

/-- C5: for every parseable timestamp `t`, the derived window satisfies
`bucket(t).start ≤ t < bucket(t).end`, its width is exactly 30 minutes,
and bucketing is idempotent: `bucket(bucket(t).start) = bucket(t)`. -/
theorem bucket_spec (t : Int) :
    (bucket t).start ≤ t ∧ t < (bucket t).stop ∧
    (bucket t).stop - (bucket t).start = halfHour ∧
    bucket (bucket t).start = bucket t := by
  refine ⟨?_, ?_, ?_, ?_⟩ <;>
    simp [bucket, truncate, halfHour, minute, second, nanosecond, TimeWindow.mk.injEq] <;>
    omega

/-
C4 - pruning.
-/

/-- C4: `pruneTrace` is total (a plain function with no failure
outcome); with an empty category it returns the trace unchanged; with a
non-empty category it maps every span to the same span with its logs
replaced by the ordered subsequence (`List.filter`) of logs whose tag
mapping carries the category key, so spans with no matching logs keep an
empty log list but are not removed. -/
theorem pruneTrace_spec (tr : Trace) (c : String) (hc : c ≠ "") :
    pruneTrace tr "" = tr ∧
    (pruneTrace tr c).spans = tr.spans.map fun span =>
      { span with logs := span.logs.filter fun l => findByKey l.fields c } := by
  constructor
  · rfl
  · simp [pruneTrace, length_ne_zero_of_ne_empty hc, pruneSpanLogs_eq_filter]

/-- C4 witness: evaluated on a concrete two-span trace and the category
key `"audit"`. -/
theorem pruneTrace_spec_witness :
    pruneTrace (Trace.mk [Span.mk 1 [LogEntry.mk [("audit", "v")], LogEntry.mk [("event", "w")]],
        Span.mk 2 [LogEntry.mk [("event", "w")]]]) "" =
      Trace.mk [Span.mk 1 [LogEntry.mk [("audit", "v")], LogEntry.mk [("event", "w")]],
        Span.mk 2 [LogEntry.mk [("event", "w")]]] ∧
    (pruneTrace (Trace.mk [Span.mk 1 [LogEntry.mk [("audit", "v")], LogEntry.mk [("event", "w")]],
        Span.mk 2 [LogEntry.mk [("event", "w")]]]) "audit").spans =
      (Trace.mk [Span.mk 1 [LogEntry.mk [("audit", "v")], LogEntry.mk [("event", "w")]],
        Span.mk 2 [LogEntry.mk [("event", "w")]]]).spans.map fun span =>
        { span with logs := span.logs.filter fun l => findByKey l.fields "audit" } :=
  pruneTrace_spec _ "audit" (by decide)

/-
C10 - pruning is idempotent.
-/

/-- C10: pruning with the same category twice gives the same trace as
pruning once (every retained log carries the key, so the second pass
retains them all). -/
theorem pruneTrace_idempotent (tr : Trace) (c : String) :
    pruneTrace (pruneTrace tr c) c = pruneTrace tr c := by
  by_cases h : c.length = 0
  · simp [pruneTrace, h]
  · simp only [pruneTrace, if_neg h, List.map_map]
    refine congrArg Trace.mk (List.map_congr_left fun span _ => ?_)
    simp [Function.comp, pruneSpanLogs_eq_filter, filter_idem]

/-
Shape of the store-call logs.
-/

/-- `findTrace` makes no store call or exactly one `FindTraces` call,
always with `context.Background()`. -/
theorem findTrace_calls_shape (env : Env) (sname : String) (q : traceQuery) :
    (findTrace env sname q).2 = [] ∨
    ∃ p, (findTrace env sname q).2 = [StoreCall.findTraces Ctx.background p] := by
  unfold findTrace
  split
  · exact Or.inl rfl
  · split
    · split
      · exact Or.inl rfl
      · split
        · exact Or.inr ⟨_, rfl⟩
        · split
          · exact Or.inr ⟨_, rfl⟩
          · split
            · exact Or.inr ⟨_, rfl⟩
            · exact Or.inr ⟨_, rfl⟩
    · exact Or.inl rfl

/-- The completeness refetch makes no store call or exactly one
`GetTrace` call, always with `context.Background()`. -/
theorem ensureLogs_calls_shape (env : Env) (tr : Trace) :
    (ensureLogs env tr).2 = [] ∨
    ∃ i, (ensureLogs env tr).2 = [StoreCall.getTrace Ctx.background i] := by
  unfold ensureLogs
  split
  · exact Or.inl rfl
  · split
    · exact Or.inl rfl
    · split
      · exact Or.inr ⟨_, rfl⟩
      · exact Or.inr ⟨_, rfl⟩

/-- The pipeline's call log is the locator's calls followed by the
refetcher's calls, each of the respective shape. -/
theorem handleTrace_calls_shape (env : Env) (ctx : Ctx) (q : traceQuery) :
    ∃ fcalls gcalls, (handleTrace env ctx q).2 = fcalls ++ gcalls ∧
      (fcalls = [] ∨ ∃ p, fcalls = [StoreCall.findTraces Ctx.background p]) ∧
      (gcalls = [] ∨ ∃ i, gcalls = [StoreCall.getTrace Ctx.background i]) := by
  have hf := findTrace_calls_shape env "tracing (exclusive)" q
  rcases h1 : findTrace env "tracing (exclusive)" q with ⟨r1, calls1⟩
  rw [h1] at hf
  cases r1 with
  | err code label =>
    exact ⟨calls1, [], by simp [handleTrace, h1], hf, Or.inl rfl⟩
  | ok trace =>
    have hg := ensureLogs_calls_shape env trace
    rcases h2 : ensureLogs env trace with ⟨r2, calls2⟩
    rw [h2] at hg
    cases r2 with
    | err code label => exact ⟨calls1, calls2, by simp [handleTrace, h1, h2], hf, hg⟩
    | ok trace2 => exact ⟨calls1, calls2, by simp [handleTrace, h1, h2], hf, hg⟩

/-
C6 - empty identity fields.
-/

/-- C6: with an empty cluster, resource, or name, the pipeline returns
the 400 `EmptyParam` outcome and the store observes zero calls (neither
the tag query nor the trace-by-ID fetch). -/
theorem emptyParam_spec (env : Env) (ctx : Ctx) (q : traceQuery)
    (h : q.cluster = "" ∨ q.resource = "" ∨ q.name = "") :
    handleTrace env ctx q = (.err 400 "EmptyParam", []) := by
  have hcond : q.cluster.length = 0 ∨ q.resource.length = 0 ∨ q.name.length = 0 := by
    rcases h with h | h | h
    · exact Or.inl (length_eq_zero_of_eq_empty h)
    · exact Or.inr (Or.inl (length_eq_zero_of_eq_empty h))
    · exact Or.inr (Or.inr (length_eq_zero_of_eq_empty h))
  have hft : findTrace env "tracing (exclusive)" q = (.err 400 "EmptyParam", []) := by
    unfold findTrace
    rw [if_pos hcond]
  simp [handleTrace, hft]

/-- C6 witness: a request with an empty name against live collaborators. -/
theorem emptyParam_spec_witness :
    handleTrace exEnvOne (Ctx.request 0)
        { cluster := "prod", resource := "pods", namespace_ := "", name := "",
          ts := "TS", spanType := "" } =
      (.err 400 "EmptyParam", []) :=
  emptyParam_spec exEnvOne (Ctx.request 0) _ (Or.inr (Or.inr rfl))

/-
C7 - unknown cluster, case-insensitive membership.
-/

/-- C7: when no listed cluster matches the queried cluster
case-insensitively (and the identity fields are non-empty), the
pipeline returns the 404 `UnknownCluster` outcome with zero store
calls; conversely a cluster that agrees with a listed cluster up to
letter case passes the membership check. -/
theorem unknownCluster_spec (env : Env) (ctx : Ctx) (q : traceQuery)
    (hc1 : q.cluster ≠ "") (hc2 : q.resource ≠ "") (hc3 : q.name ≠ "")
    (hmem : ∀ k ∈ env.clusters, toLowerStr k ≠ toLowerStr q.cluster) :
    handleTrace env ctx q = (.err 404 "UnknownCluster", []) ∧
    ∀ (clusters : List String) (c k : String), k ∈ clusters → toLowerStr k = toLowerStr c →
      hasClusterIn clusters c = true := by
  constructor
  · have hguard : ¬(q.cluster.length = 0 ∨ q.resource.length = 0 ∨ q.name.length = 0) := by
      push_neg
      exact ⟨length_ne_zero_of_ne_empty hc1, length_ne_zero_of_ne_empty hc2,
        length_ne_zero_of_ne_empty hc3⟩
    have hhc : hasClusterIn env.clusters q.cluster = false := by
      simp only [hasClusterIn, List.any_eq_false]
      intro k hk
      simpa using hmem k hk
    have hft : findTrace env "tracing (exclusive)" q = (.err 404 "UnknownCluster", []) := by
      unfold findTrace
      rw [if_neg hguard, if_neg (by simp [hhc])]
    simp [handleTrace, hft]
  · intro clusters c k hk heq
    simp only [hasClusterIn, List.any_eq_true]
    exact ⟨k, hk, by simp [heq]⟩

/-- C7 witness: cluster `"prod"` against a registry listing only
`"other"`. -/
theorem unknownCluster_spec_witness :
    handleTrace exEnvNone (Ctx.request 0) exQuery = (.err 404 "UnknownCluster", []) :=
  (unknownCluster_spec exEnvNone (Ctx.request 0) exQuery (by decide) (by decide) (by decide)
    (by decide)).1

/-
C2 - ambiguous match.
-/

/-- C2: when the tag query returns more than one trace, the pipeline
returns the 500 `MultiTraceMatch` outcome as a hard server error; no
trace is selected or returned alongside the error. -/
theorem ambiguousMatch_spec (env : Env) (ctx : Ctx) (q : traceQuery) (t : Int)
    (traces : List Trace)
    (hc1 : q.cluster ≠ "") (hc2 : q.resource ≠ "") (hc3 : q.name ≠ "")
    (hmem : hasClusterIn env.clusters q.cluster = true)
    (hts : env.parseTs q.ts = some t)
    (hfind : env.findTraces Ctx.background (buildParams "tracing (exclusive)" q t)
      = .ok traces)
    (hlen : traces.length > 1) :
    handleTrace env ctx q =
      (.err 500 "MultiTraceMatch",
        [StoreCall.findTraces Ctx.background (buildParams "tracing (exclusive)" q t)]) ∧
    ∀ tr, (handleTrace env ctx q).1 ≠ Outcome.ok tr := by
  have hmain : handleTrace env ctx q =
      (.err 500 "MultiTraceMatch",
        [StoreCall.findTraces Ctx.background (buildParams "tracing (exclusive)" q t)]) := by
    have hft : findTrace env "tracing (exclusive)" q =
        (.err 500 "MultiTraceMatch",
          [StoreCall.findTraces Ctx.background (buildParams "tracing (exclusive)" q t)]) := by
      simp [findTrace, length_ne_zero_of_ne_empty hc1, length_ne_zero_of_ne_empty hc2,
        length_ne_zero_of_ne_empty hc3, hmem, hts, hfind, hlen]
    simp [handleTrace, hft]
  exact ⟨hmain, fun tr h => by simp [hmain] at h⟩

/-- C2 witness: a store holding two traces in the queried window. -/
theorem ambiguousMatch_spec_witness :
    handleTrace exEnvAmb (Ctx.request 0) exQuery =
      (.err 500 "MultiTraceMatch",
        [StoreCall.findTraces Ctx.background
          (buildParams "tracing (exclusive)" exQuery 1000)]) :=
  (ambiguousMatch_spec exEnvAmb (Ctx.request 0) exQuery 1000 [exTraceFull, exTraceBare]
    (by decide) (by decide) (by decide) (by decide) (by decide) rfl (by decide)).1

/-
C9 - query derivation.
-/

/-- C9: the tag query executed by the pipeline is derived
deterministically from the identity: a fixed sentinel service name
`"tracing (exclusive)"` independent of the identity (not the cluster
name), operation name equal to the cluster name, tags exactly
`resource` and `name` plus `namespace` only when non-empty, and the
bucketed 30-minute window. -/
theorem queryDerivation_spec (env : Env) (ctx : Ctx) (q : traceQuery) (t : Int)
    (hc1 : q.cluster ≠ "") (hc2 : q.resource ≠ "") (hc3 : q.name ≠ "")
    (hmem : hasClusterIn env.clusters q.cluster = true)
    (hts : env.parseTs q.ts = some t) :
    (handleTrace env ctx q).2.head? = some (StoreCall.findTraces Ctx.background
      { serviceName := "tracing (exclusive)"
        operationName := q.cluster
        tags := [("resource", q.resource), ("name", q.name)] ++
          (if q.namespace_ ≠ "" then [("namespace", q.namespace_)] else [])
        startTimeMin := (bucket t).start
        startTimeMax := (bucket t).stop }) := by
  have hguard : ¬(q.cluster.length = 0 ∨ q.resource.length = 0 ∨ q.name.length = 0) := by
    push_neg
    exact ⟨length_ne_zero_of_ne_empty hc1, length_ne_zero_of_ne_empty hc2,
      length_ne_zero_of_ne_empty hc3⟩
  have hbp : buildParams "tracing (exclusive)" q t =
      { serviceName := "tracing (exclusive)"
        operationName := q.cluster
        tags := [("resource", q.resource), ("name", q.name)] ++
          (if q.namespace_ ≠ "" then [("namespace", q.namespace_)] else [])
        startTimeMin := (bucket t).start
        startTimeMax := (bucket t).stop } := rfl
  rcases hstore : env.findTraces Ctx.background (buildParams "tracing (exclusive)" q t)
    with e | traces
  · have hft : findTrace env "tracing (exclusive)" q = (.err 500 "TraceError",
        [StoreCall.findTraces Ctx.background (buildParams "tracing (exclusive)" q t)]) := by
      simp [findTrace, hguard, hmem, hts, hstore]
    simp [handleTrace, hft, hbp]
  · by_cases hlen : traces.length > 1
    · have hft : findTrace env "tracing (exclusive)" q = (.err 500 "MultiTraceMatch",
          [StoreCall.findTraces Ctx.background (buildParams "tracing (exclusive)" q t)]) := by
        simp [findTrace, hguard, hmem, hts, hstore, hlen]
      simp [handleTrace, hft, hbp]
    · cases traces with
      | nil =>
        have hft : findTrace env "tracing (exclusive)" q = (.err 404 "NoTraceMatch",
            [StoreCall.findTraces Ctx.background (buildParams "tracing (exclusive)" q t)]) := by
          simp [findTrace, hguard, hmem, hts, hstore]
        simp [handleTrace, hft, hbp]
      | cons tr rest =>
        have hrest : rest = [] := by
          cases rest with
          | nil => rfl
          | cons a l => simp at hlen
        subst hrest
        have hft : findTrace env "tracing (exclusive)" q = (.ok tr,
            [StoreCall.findTraces Ctx.background (buildParams "tracing (exclusive)" q t)]) := by
          simp [findTrace, hguard, hmem, hts, hstore]
        rcases hel : ensureLogs env tr with ⟨r2, calls2⟩
        cases r2 <;> simp [handleTrace, hft, hel, hbp]

/-- C9 witness: the first store call of the single-match scenario. -/
theorem queryDerivation_spec_witness :
    (handleTrace exEnvOne (Ctx.request 0) exQuery).2.head? =
      some (StoreCall.findTraces Ctx.background
        { serviceName := "tracing (exclusive)"
          operationName := exQuery.cluster
          tags := [("resource", exQuery.resource), ("name", exQuery.name)] ++
            (if exQuery.namespace_ ≠ "" then [("namespace", exQuery.namespace_)] else [])
          startTimeMin := (bucket 1000).start
          startTimeMax := (bucket 1000).stop }) :=
  queryDerivation_spec exEnvOne (Ctx.request 0) exQuery 1000
    (by decide) (by decide) (by decide) (by decide) (by decide)

/-
C1 - the success pipeline and its short-circuiting.
-/

/-- C1: for a valid identity (non-empty fields, known cluster,
parseable timestamp) whose tag query returns exactly one trace, the
pipeline returns `Success` carrying that trace after the completeness
step (refetching if needed) and pruning; and any non-`Success` locator
outcome is returned as is, so the later stages never run (no further
store call, no pruning). -/
theorem resolve_success (env : Env) (ctx : Ctx) (q : traceQuery) (t : Int)
    (tr tr2 : Trace) (calls2 : List StoreCall)
    (hc1 : q.cluster ≠ "") (hc2 : q.resource ≠ "") (hc3 : q.name ≠ "")
    (hmem : hasClusterIn env.clusters q.cluster = true)
    (hts : env.parseTs q.ts = some t)
    (hfind : env.findTraces Ctx.background (buildParams "tracing (exclusive)" q t)
      = .ok [tr])
    (hcomplete : ensureLogs env tr = (.ok tr2, calls2)) :
    (handleTrace env ctx q).1 = .ok (pruneTrace tr2 q.spanType) ∧
    ∀ (env2 : Env) (ctx2 : Ctx) (q2 : traceQuery) (code : Nat) (label : String)
      (calls : List StoreCall),
      findTrace env2 "tracing (exclusive)" q2 = (.err code label, calls) →
      handleTrace env2 ctx2 q2 = (.err code label, calls) := by
  constructor
  · have hguard : ¬(q.cluster.length = 0 ∨ q.resource.length = 0 ∨ q.name.length = 0) := by
      push_neg
      exact ⟨length_ne_zero_of_ne_empty hc1, length_ne_zero_of_ne_empty hc2,
        length_ne_zero_of_ne_empty hc3⟩
    have hft : findTrace env "tracing (exclusive)" q = (.ok tr,
        [StoreCall.findTraces Ctx.background (buildParams "tracing (exclusive)" q t)]) := by
      simp [findTrace, hguard, hmem, hts, hfind]
    simp [handleTrace, hft, hcomplete]
  · intro env2 ctx2 q2 code label calls h
    simp [handleTrace, h]

/-- C1 witness: the single-match scenario resolves to the pruned,
completeness-refetched trace. -/
theorem resolve_success_witness :
    (handleTrace exEnvOne (Ctx.request 0) exQuery).1 = .ok (pruneTrace exTraceFull "") :=
  (resolve_success exEnvOne (Ctx.request 0) exQuery 1000 exTraceBare exTraceFull
    [StoreCall.getTrace Ctx.background 2]
    (by decide) (by decide) (by decide) (by decide) (by decide) rfl (by decide)).1

/-
C3 - completeness refetch.
-/

/-- C3: for a located trace, the completeness step passes an empty
trace, or a trace some span of which already carries a log, through
unchanged with no store call; when the trace has spans and none carries
a log it issues exactly one trace-by-ID fetch with the first span's
trace ID, whose result replaces the working trace (the 500 `TraceError`
outcome when that fetch fails); over the whole pipeline at most one
trace-by-ID fetch ever happens per request. -/
theorem ensureLogs_spec (env : Env) (trace : Trace) :
    (trace.spans = [] → ensureLogs env trace = (.ok trace, [])) ∧
    ((∃ s ∈ trace.spans, s.logs ≠ []) → ensureLogs env trace = (.ok trace, [])) ∧
    (∀ span0 rest fetched, trace.spans = span0 :: rest →
      (∀ s ∈ trace.spans, s.logs = []) →
      env.getTrace Ctx.background span0.traceID = .ok fetched →
      ensureLogs env trace = (.ok fetched, [.getTrace Ctx.background span0.traceID])) ∧
    (∀ span0 rest e, trace.spans = span0 :: rest →
      (∀ s ∈ trace.spans, s.logs = []) →
      env.getTrace Ctx.background span0.traceID = .error e →
      ensureLogs env trace = (.err 500 "TraceError", [.getTrace Ctx.background span0.traceID])) ∧
    (∀ (ctx : Ctx) (q : traceQuery),
      ((handleTrace env ctx q).2.filter isGetTrace).length ≤ 1) := by
  refine ⟨?_, ?_, ?_, ?_, ?_⟩
  · intro h
    simp [ensureLogs, h]
  · rintro ⟨s, hs, hlogs⟩
    have hhl : hasLogs trace = true := by
      simp only [hasLogs, List.any_eq_true]
      exact ⟨s, hs, by simpa using List.length_pos.mpr hlogs⟩
    cases hsp : trace.spans with
    | nil => simp [hsp] at hs
    | cons s0 rest => simp [ensureLogs, hsp, hhl]
  · intro span0 rest fetched hsp hall hget
    have hhl : hasLogs trace = false := by
      simp only [hasLogs, List.any_eq_false]
      intro s hs
      simp [hall s hs]
    simp [ensureLogs, hsp, hhl, hget]
  · intro span0 rest e hsp hall hget
    have hhl : hasLogs trace = false := by
      simp only [hasLogs, List.any_eq_false]
      intro s hs
      simp [hall s hs]
    simp [ensureLogs, hsp, hhl, hget]
  · intro ctx q
    obtain ⟨fcalls, gcalls, heq, hfc, hgc⟩ := handleTrace_calls_shape env ctx q
    rw [heq, List.filter_append, List.length_append]
    have h1 : (fcalls.filter isGetTrace).length = 0 := by
      rcases hfc with rfl | ⟨p, rfl⟩ <;> simp [isGetTrace]
    have h2 : (gcalls.filter isGetTrace).length ≤ 1 := by
      rcases hgc with rfl | ⟨i, rfl⟩ <;> simp [isGetTrace]
    omega

/-- C3 witness: a one-span log-less trace triggers exactly one ID fetch
whose result replaces the working trace. -/
theorem ensureLogs_spec_witness :
    ensureLogs exEnvOne exTraceBare =
      (.ok exTraceFull, [StoreCall.getTrace Ctx.background exSpanBare.traceID]) :=
  (ensureLogs_spec exEnvOne exTraceBare).2.2.1 exSpanBare [] exTraceFull rfl (by decide) rfl

/-
C8 - context propagation to the store calls.
-/

/-- C8 (documents the divergence): every store call the pipeline makes
receives `context.Background()`, whatever the caller's request context
is — the caller's deadline/cancellation signal is never propagated to
`FindTraces` or `GetTrace`. -/
theorem storeCtx_background (env : Env) (ctx : Ctx) (q : traceQuery) :
    ∀ c ∈ (handleTrace env ctx q).2, callCtx c = Ctx.background := by
  intro c hc
  obtain ⟨fcalls, gcalls, heq, hf, hg⟩ := handleTrace_calls_shape env ctx q
  rw [heq] at hc
  rcases List.mem_append.mp hc with h | h
  · rcases hf with rfl | ⟨p, rfl⟩
    · cases h
    · rw [List.mem_singleton] at h
      subst h
      rfl
  · rcases hg with rfl | ⟨i, rfl⟩
    · cases h
    · rw [List.mem_singleton] at h
      subst h
      rfl

/-- C8 witness: with a distinct caller request context, the tag query
still runs under the background context. -/
theorem storeCtx_background_witness :
    callCtx (StoreCall.findTraces Ctx.background
      (buildParams "tracing (exclusive)" exQuery 1000)) = Ctx.background :=
  storeCtx_background exEnvOne (Ctx.request 7) exQuery
    (StoreCall.findTraces Ctx.background (buildParams "tracing (exclusive)" exQuery 1000))
    (by decide)

end Kelemetry
